import Mathlib

/-
  Shallow embedding of the virusseq/schema-migration sources.

  Mapping of source files to Lean definitions:
  - src/types/result.ts ........ Result, success/failure constructors, asResult, withResult
  - src/migration/transform.ts . Transform, defineTransform, extendTransformChain and the
                                 chain operations (add / from / to / apply)
  - src/utils/arrayUtils.ts .... sliceFrom, sliceTo (lodash findIndex is findIndex? below)
  - src/structures/queue.ts .... queueTake (the take() operation of the event queue)
  - src/structures/promiseQueue.ts ... PQState, tryStart, PQStep (concurrency limiter)
  - src/tasks/migrateAndUpdateStudy.ts ... MigrationCounts, filterSkippedAnalyses,
                                 updateCountsWithResults (the page-accounting forEach)

  Modelling conventions: TypeScript machine numbers used as schema versions are Int;
  JavaScript union input types `Result<T> | T` are `Result T ⊕ T`; functions that may
  throw are `α → Except Unknown β` where the thrown value is caught by withResult;
  lodash cloneDeep is the identity in this pure model, so "mutation" of inputs is
  impossible by construction and immutability claims are stated as equalities about
  the values returned.
-/

/- ===== src/types/result.ts ===== -/

/-- Result discriminated union: `Success with data` or `Failure with errors` (ordered
strings), exactly as `type Result<T>` in src/types/result.ts. -/
inductive Result (α : Type) where
  | success (data : α)
  | failure (errors : List String)
deriving DecidableEq

/-- Discriminant test mirroring the boolean `success` field being false. -/
def Result.isFailure {α : Type} : Result α → Bool
  | .success _ => false
  | .failure _ => true

/-- Discriminant test mirroring the boolean `success` field being true. -/
def Result.isSuccess {α : Type} : Result α → Bool
  | .success _ => true
  | .failure _ => false

/-- Error list of a Result (empty for a Success), used to state facts about the
`errors` field of the source Results. -/
def resultErrors {α : Type} : Result α → List String
  | .success _ => []
  | .failure errors => errors

/-- Values of arbitrary JavaScript type that the variadic `failure(...errors)` accepts:
strings, numbers, booleans, and objects. An object constructor carries the string the
object renders to. -/
inductive Unknown where
  | str (s : String)
  | num (n : Int)
  | bool (b : Bool)
  | obj (rendered : String)
deriving DecidableEq

/-- Modelled from the spec: `unknownToString` lives in src/utils/typeUtils which is not
included under src/. Per spec section 4.1, `failure(...parts)` renders "every part ...
to a string (objects/numbers/booleans stringified)", so a string part renders as
itself, numbers and booleans render in their usual decimal/keyword forms, and an
object part renders to its (lossy, diagnostic) string form which the model carries in
the `obj` constructor. -/
def unknownToString : Unknown → String
  | .str s => s
  | .num n => toString n
  | .bool b => toString b
  | .obj rendered => rendered

/-- Source `failure(...errors)`: builds a Failure whose error list is every argument
mapped through `unknownToString`. -/
def mkFailure {α : Type} (errors : List Unknown) : Result α :=
  .failure (errors.map unknownToString)

/-- Source `asResult(input)`: if the input already is a Result it is returned as-is,
otherwise it is wrapped as a Success. The source detects "already a Result" by
duck-typing on a boolean `success` field; the tagged sum `Result α ⊕ α` represents the
same union with the tag made explicit. -/
def asResult {α : Type} : Result α ⊕ α → Result α
  | .inl r => r
  | .inr v => .success v

/-- Source `withResult(fn)`: lifts a possibly-throwing `fn` (returning a Result or a
bare value, i.e. `Result β ⊕ β`; a thrown value is `Except.error`) into a total
function from `Result α | α` to `Result β`. A Failure input is rebuilt through
`failure(...result.errors)`; a Success input has `fn` applied to its data, any thrown
value is caught and converted to a Failure, and a normal return is normalized through
`asResult`. -/
def withResult {α β : Type} (fn : α → Except Unknown (Result β ⊕ β)) :
    Result α ⊕ α → Result β :=
  fun input =>
    match asResult input with
    | .failure errors => mkFailure (errors.map .str)
    | .success data =>
      match fn data with
      | .error e => mkFailure [e]
      | .ok v => asResult v

/- ===== src/external/song/types.ts ===== -/

/-- AnalysisType from src/external/song/types.ts: the schema identity, a name (the
schema family) and a numeric version. -/
structure AnalysisType where
  name : String
  version : Int
deriving DecidableEq

/-- Analysis record. The source Analysis is a large passthrough object; every claim
treats all fields other than `analysisType` opaquely, so the model carries them as a
single `payload` component. Transformers remain arbitrary functions on Analysis, so no
generality about transform behaviour is lost. -/
structure Analysis where
  analysisType : AnalysisType
  payload : Nat
deriving DecidableEq

/-- JSON.stringify of an AnalysisType value as produced inside the chain-break error
message of src/migration/transform.ts. -/
def stringifyAnalysisType (t : AnalysisType) : String :=
  "\x7b\"name\":\"" ++ t.name ++ "\",\"version\":" ++ toString t.version ++ "\x7d"

/- ===== src/migration/transform.ts ===== -/

/-- Transform as returned by `defineTransform`: the start and end schema identities
and the wrapped transformer. The source field `end` is a Lean keyword, so it is named
`end_` here. -/
structure Transform where
  start : AnalysisType
  end_ : AnalysisType
  transformer : Analysis → Result Analysis

/-- Rendering of the `versions` object `defineTransform` passes to `failure` when the
inner transformer fails (diagnostic text only; no claim depends on its exact form). -/
def stringifyVersions (t : Transform) : String :=
  "\x7b\"start\":" ++ stringifyAnalysisType t.start ++ ",\"end\":" ++
    stringifyAnalysisType t.end_ ++ "\x7d"

/-- Rendering of a Result object when passed to `failure` as a diagnostic part. -/
def stringifyResultErrors (errors : List String) : String :=
  "\x7b\"success\":false,\"errors\":" ++ toString errors ++ "\x7d"

/-- The `apply` closure built by `defineTransform(versions, transformer)`:
fails when `input.analysisType` is not structurally equal to `start` (lodash isEqual
is structural equality, i.e. DecidableEq on AnalysisType); otherwise runs the
transformer; wraps a transformer failure with the version pair for diagnostics; on
success stamps the `analysisType` of the transformed record to `end`. -/
def Transform.apply (t : Transform) (input : Analysis) : Result Analysis :=
  if input.analysisType ≠ t.start then
    mkFailure [.str "Analysis type does not match expected input type"]
  else
    match t.transformer input with
    | .failure errors =>
      mkFailure [.str "Error applying transform", .obj (stringifyVersions t),
        .obj (stringifyResultErrors errors)]
    | .success data => .success { data with analysisType := t.end_ }

/-- Source `defineTransform({start, end}, transformer)`. -/
def defineTransform (start end_ : AnalysisType)
    (transformer : Analysis → Result Analysis) : Transform :=
  ⟨start, end_, transformer⟩

/-- The chain-break message thrown (and caught into a Failure) by
`extendTransformChain` when the transform at `index` does not connect: note the source
interpolates `transform.end` after "Received:" while the value actually compared
against the expected end is `transform.start`. -/
def chainBreakMessage (index : Nat) (t : Transform) (expected : AnalysisType) : String :=
  "Transform provided at index " ++ toString index ++
    " does not connect to the transform chain. Received: " ++
    stringifyAnalysisType t.end_ ++ " - Expected: " ++ stringifyAnalysisType expected

/-- The forEach body of `extendTransformChain`: walks the supplied transforms with
their index, appending each to the accumulated chain when its start equals the end of
the chain so far (or trivially for the first transform on an empty chain), and
aborting with the chain-break Failure otherwise. The source throws the message string
and catches it one frame up into `failure(e)`; since the thrown value is a string the
resulting error list is that one message. -/
def extendLoop (chain : List Transform) (index : Nat) :
    List Transform → Result (List Transform)
  | [] => .success chain
  | t :: rest =>
    let expected := match chain.getLast? with
      | some prev => prev.end_
      | none => t.start
    if expected = t.start then
      extendLoop (chain ++ [t]) (index + 1) rest
    else
      mkFailure [.str (chainBreakMessage index t expected)]

/-- Source `extendTransformChain(baseChain)(...transforms)` restricted to the data it
validates and returns: the transform sequence of the chain (the closures getStart,
getEnd, add, from, to, apply are defined below over this sequence). -/
def extendTransformChain (baseChain : List Transform)
    (transforms : List Transform) : Result (List Transform) :=
  extendLoop baseChain 0 transforms

/-- Source `createTransformChain = extendTransformChain([])`. -/
def createTransformChain (transforms : List Transform) : Result (List Transform) :=
  extendTransformChain [] transforms

/-- Source `getStart = () => chain[0].start`; indexing an empty array yields a runtime
crash in the source, modelled as `none`. -/
def chainGetStart? (chain : List Transform) : Option AnalysisType :=
  chain.head?.map (·.start)

/-- Source `getEnd = () => chain.slice(-1)[0].end`; crash on empty modelled as
`none`. -/
def chainGetEnd? (chain : List Transform) : Option AnalysisType :=
  chain.getLast?.map (·.end_)

/- ===== src/utils/arrayUtils.ts ===== -/

/-- Lodash `findIndex` used by sliceFrom/sliceTo, with the -1 sentinel modelled as
`none`. -/
def findIndex? {α : Type} (test : α → Bool) : List α → Option Nat
  | [] => none
  | x :: rest => if test x then some 0 else (findIndex? test rest).map (· + 1)

/-- Source `sliceFrom(array, test)`: the copy of `array` beginning at the first
element passing `test`, or a Failure when no element passes. -/
def sliceFrom {α : Type} (array : List α) (test : α → Bool) : Result (List α) :=
  match findIndex? test array with
  | none =>
    mkFailure [.str "Unable to find item in array that matches provided starting position test."]
  | some sliceIndex => .success (array.drop sliceIndex)

/-- Source `sliceTo(array, test, inclusive)`: the prefix of `array` ending just
before (or, when inclusive, at) the first element passing `test`, or a Failure when
no element passes. -/
def sliceTo {α : Type} (array : List α) (test : α → Bool) (inclusive : Bool) :
    Result (List α) :=
  match findIndex? test array with
  | none =>
    mkFailure [.str "Unable to find item in array that matches provided end position test."]
  | some sliceIndex => .success (array.take (sliceIndex + (if inclusive then 1 else 0)))

/- ===== chain operations from src/migration/transform.ts ===== -/

/-- Source `from(version)`: slice the chain from the first transform whose start
equals the version, then rebuild through `extendTransformChain(sliced)()` (which
revalidates zero new transforms and therefore returns the sliced sequence). -/
def chainFrom (chain : List Transform) (version : AnalysisType) :
    Result (List Transform) :=
  match sliceFrom chain (fun t => t.start = version) with
  | .failure errors =>
    .failure ("Migration chain does not have a transform to start from for analyses of this type"
      :: stringifyAnalysisType version :: errors)
  | .success data => extendTransformChain data []

/-- Source `to(version)`: slice the chain up to and including the first transform
whose end equals the version, then rebuild through `extendTransformChain(sliced)()`. -/
def chainTo (chain : List Transform) (version : AnalysisType) :
    Result (List Transform) :=
  match sliceTo chain (fun t => t.end_ = version) true with
  | .failure errors =>
    .failure ("Migration chain does not have a transform to end on for analyses of this type"
      :: stringifyAnalysisType version :: errors)
  | .success data => extendTransformChain data []

/-- Source `add(transform) = extendTransformChain(chain)(transform)`. -/
def chainAdd (chain : List Transform) (t : Transform) : Result (List Transform) :=
  extendTransformChain chain [t]

/-- Source `apply(analysis)`: reduce the apply of every transform, each lifted through
`withResult`, over `asResult(cloneDeep(analysis))` (cloneDeep is the identity in this
pure model). The apply of each transform is total, so the lifted step never throws. -/
def chainApply (chain : List Transform) (analysis : Analysis) : Result Analysis :=
  chain.foldl
    (fun acc t => withResult (fun a => Except.ok (Sum.inl (t.apply a))) (Sum.inl acc))
    (asResult (Sum.inr analysis))

/- ===== src/structures/queue.ts ===== -/

/-- Event payload fired to queue listeners: the queue length at firing time and the
item involved. -/
structure QueueEvent (α : Type) where
  length : Nat
  item : α
deriving DecidableEq

/-- Source `take()` of the event queue: `queue.shift()` removes the head
unconditionally; the source then tests the shifted value with a JavaScript
truthiness check `if (item)`, returning the item as a Success and firing every
take-listener with the length after removal, and otherwise returning
a Failure carrying the message Empty Queue. The truthiness of the element type is the `isTruthy`
parameter (for JavaScript numbers, zero is falsy). Returns the Result, the queue
after the call, and the event delivered to each registered take-listener (none when
no listeners fire). -/
def queueTake {α : Type} (isTruthy : α → Bool) (queue : List α) :
    Result α × List α × Option (QueueEvent α) :=
  match queue with
  | [] => (mkFailure [.str "Empty Queue"], [], none)
  | item :: rest =>
    if isTruthy item then
      (.success item, rest, some ⟨rest.length, item⟩)
    else
      (mkFailure [.str "Empty Queue"], rest, none)

/-- JavaScript truthiness of a number: zero is falsy, every other integer truthy. -/
def jsNumberTruthy (n : Int) : Bool := n ≠ 0

/- ===== src/structures/promiseQueue.ts ===== -/

/-- State of the concurrency limiter: the pending work items (the backing Queue of
closures, identified by submission ids), the ids currently running
(`activeProcesses` is its length), the ids in the order they were started, and the
ids whose work completed. -/
structure PQState where
  pending : List Nat
  running : List Nat
  started : List Nat
  finished : List Nat
deriving DecidableEq

/-- Source `attemptStart`: when `activeProcesses < maxConcurrency`, take the next
pending item; if one exists, increment the active count and start it (record it as
started). All of this happens synchronously between suspension points, so it is one
atomic step of the cooperative scheduler. -/
def tryStart (maxConcurrency : Nat) (s : PQState) : PQState :=
  if s.running.length < maxConcurrency then
    match s.pending with
    | [] => s
    | next :: rest =>
      { s with pending := rest, running := s.running ++ [next], started := s.started ++ [next] }
  else s

/-- Source `add(fn)`: append the work item to the queue; the registered
`queue.onAdd(attemptStart)` hook then runs one admission attempt. -/
def pqAdd (maxConcurrency : Nat) (i : Nat) (s : PQState) : PQState :=
  tryStart maxConcurrency { s with pending := s.pending ++ [i] }

/-- Completion of running item `i` (the code after `await next.data()` resolves, or
the catch branch when error listeners exist): decrement the active count and run one
admission attempt to drain the queue. -/
def pqFinish (maxConcurrency : Nat) (i : Nat) (s : PQState) : PQState :=
  tryStart maxConcurrency { s with running := s.running.erase i, finished := s.finished ++ [i] }

/-- One observable step of a PromiseQueue under the single-threaded cooperative
scheduling model: either some caller adds a work item, or some currently running
item resolves. -/
inductive PQStep (maxConcurrency : Nat) : PQState → PQState → Prop where
  | add (i : Nat) (s : PQState) : PQStep maxConcurrency s (pqAdd maxConcurrency i s)
  | finish (i : Nat) (s : PQState) (h : i ∈ s.running) :
      PQStep maxConcurrency s (pqFinish maxConcurrency i s)

/-- The state a freshly constructed PromiseQueue starts in: nothing pending, running,
started or finished. -/
def pqInit : PQState := ⟨[], [], [], []⟩

/-- Reachable states of a PromiseQueue run. -/
def PQReachable (maxConcurrency : Nat) (s : PQState) : Prop :=
  Relation.ReflTransGen (PQStep maxConcurrency) pqInit s

/- The claimed scenario: maxConcurrency = 2, five work items with equal fixed delays.
   All five adds happen first (the caller submits synchronously), then the items
   resolve in the order they started, one at a time. -/

/-- Scenario state after submitting item 1. -/
def pqS1 : PQState := pqAdd 2 1 pqInit

/-- Scenario state after submitting item 2. -/
def pqS2 : PQState := pqAdd 2 2 pqS1

/-- Scenario state after submitting item 3. -/
def pqS3 : PQState := pqAdd 2 3 pqS2

/-- Scenario state after submitting item 4. -/
def pqS4 : PQState := pqAdd 2 4 pqS3

/-- Scenario state after submitting item 5. -/
def pqS5 : PQState := pqAdd 2 5 pqS4

/-- Scenario state after item 1 resolves. -/
def pqS6 : PQState := pqFinish 2 1 pqS5

/-- Scenario state after item 2 resolves. -/
def pqS7 : PQState := pqFinish 2 2 pqS6

/-- Scenario state after item 3 resolves. -/
def pqS8 : PQState := pqFinish 2 3 pqS7

/-- Scenario state after item 4 resolves. -/
def pqS9 : PQState := pqFinish 2 4 pqS8

/-- Scenario state after item 5 resolves. -/
def pqS10 : PQState := pqFinish 2 5 pqS9

/-- Every state the scenario run passes through. -/
def pqScenarioTrace : List PQState :=
  [pqInit, pqS1, pqS2, pqS3, pqS4, pqS5, pqS6, pqS7, pqS8, pqS9, pqS10]

/- ===== src/tasks/migrateAndUpdateStudy.ts ===== -/

/-- The counts component of the per-study MigrationSummary. -/
structure MigrationCounts where
  successful : Nat
  error : Nat
  skipped : Nat
  processed : Nat
  total : Nat
deriving DecidableEq

/-- Source `filterSkippedAnalyses(analyses)`: keep the analyses whose declared
version number is strictly below the version number of the chain end (the schema family
name is not consulted); count every dropped analysis as both skipped and processed.
The source mutates the closed-over summary; the model passes the counts explicitly
and returns the filtered page together with the updated counts. -/
def filterSkippedAnalyses (endVersion : Int) (counts : MigrationCounts)
    (analyses : List Analysis) : List Analysis × MigrationCounts :=
  let filtered := analyses.filter (fun analysis => analysis.analysisType.version < endVersion)
  let skipped := analyses.length - filtered.length
  (filtered,
    { counts with skipped := counts.skipped + skipped, processed := counts.processed + skipped })

/-- Modelled from the spec: `migrateAnalyses` lives in src/tasks/migrateAnalyses
which is not included under src/. Per spec section 4.6 the migration stage applies
"the Transform Chain to every remaining record", each outcome kept per record, so it
maps the apply of the chain over the filtered page. -/
def migrateAnalyses (chain : List Transform) (analyses : List Analysis) :
    List (Result Analysis) :=
  analyses.map (chainApply chain)

/-- The per-page accounting forEach of migrateAndUpdateStudy: each successful
per-analysis result increments successful and processed, each failure increments
error and processed. -/
def updateCountsWithResults {α : Type} (counts : MigrationCounts)
    (results : List (Result α)) : MigrationCounts :=
  results.foldl
    (fun c r =>
      match r with
      | .success _ => { c with successful := c.successful + 1, processed := c.processed + 1 }
      | .failure _ => { c with error := c.error + 1, processed := c.processed + 1 })
    counts

/- ===== Concrete fixtures used by witnesses and counterexamples ===== -/

/-- Schema identity version 1 of the fixture family. -/
def vA : AnalysisType := ⟨"cs", 1⟩

/-- Schema identity version 2 of the fixture family. -/
def vB : AnalysisType := ⟨"cs", 2⟩

/-- Schema identity version 3 of the fixture family. -/
def vC : AnalysisType := ⟨"cs", 3⟩

/-- Schema identity version 4 of the fixture family. -/
def vD : AnalysisType := ⟨"cs", 4⟩

/-- Fixture transform builder whose transformer increments the payload, making the
number of applied steps observable in the output. -/
def stepTransform (s e : AnalysisType) : Transform :=
  defineTransform s e (fun r => .success { r with payload := r.payload + 1 })

/-- Fixture record at version 1 of the fixture family, with payload 0. -/
def r0 : Analysis := ⟨vA, 0⟩

/-- Fixture chain a-b, b-a, a-b: a validly connected chain that revisits the version
pair, so its final end version also occurs as the end of its first transform. -/
def dupChain : List Transform :=
  [stepTransform vA vB, stepTransform vB vA, stepTransform vA vB]

/-- The transform list a successful Result of the chain constructor carries (empty
for a Failure), used to feed the output of one chain operation into the next. -/
def resultChain (r : Result (List Transform)) : List Transform :=
  match r with
  | .success chain => chain
  | .failure _ => []

/-- Fixture chain a-b then b-c with all versions distinct along the path. -/
def chainABC : List Transform := [stepTransform vA vB, stepTransform vB vC]

/-- Fixture step that throws (models a transformer body raising an exception). -/
def throwingStep : Nat → Except Unknown (Result Nat ⊕ Nat) :=
  fun _ => .error (.str "boom")

/-- Fixture step that returns a bare value (no Result wrapper, no throw). -/
def bareStep : Nat → Except Unknown (Result Nat ⊕ Nat) :=
  fun n => .ok (.inr (n + 1))

/- ===== Helper lemmas ===== -/

/-- Rendering a list of strings to Unknown string parts and back through
unknownToString is the identity, reflecting that the spec renders string parts
as themselves. -/
theorem map_unknownToString_str (l : List String) :
    l.map (fun s => unknownToString (Unknown.str s)) = l := by
  induction l with
  | nil => rfl
  | cons s rest ih => simp [unknownToString, ih]

/-- A Failure input passes through withResult unchanged: the rebuilt
`failure(...result.errors)` carries the identical error strings. -/
theorem withResult_inl_failure {α β : Type} (fn : α → Except Unknown (Result β ⊕ β))
    (errs : List String) :
    withResult fn (Sum.inl (Result.failure errs)) = Result.failure errs := by
  show mkFailure (errs.map .str) = Result.failure errs
  simp only [mkFailure, List.map_map]
  rw [show (unknownToString ∘ Unknown.str) = fun s => unknownToString (Unknown.str s) from rfl]
  rw [map_unknownToString_str]

/-- Folding the lifted steps of the chain over a Failure accumulator leaves the Failure
untouched: once a step fails, every later transform is skipped. -/
theorem chainApply_foldl_failure (chain : List Transform) (errs : List String) :
    chain.foldl
      (fun acc t => withResult (fun a => Except.ok (Sum.inl (t.apply a))) (Sum.inl acc))
      (Result.failure errs) = Result.failure errs := by
  induction chain with
  | nil => rfl
  | cons t rest ih => rw [List.foldl_cons, withResult_inl_failure]; exact ih

/-- Unfolding one step of chainApply on a non-empty chain. -/
theorem chainApply_cons (t : Transform) (rest : List Transform) (a : Analysis) :
    chainApply (t :: rest) a =
      rest.foldl
        (fun acc t => withResult (fun x => Except.ok (Sum.inl (t.apply x))) (Sum.inl acc))
        (t.apply a) := rfl

/-- findIndex? finds nothing exactly when no element passes the test. -/
theorem findIndex?_eq_none_iff {α : Type} (test : α → Bool) (l : List α) :
    findIndex? test l = none ↔ ∀ x ∈ l, test x = false := by
  induction l with
  | nil => simp [findIndex?]
  | cons x rest ih =>
    by_cases h : test x
    · simp [findIndex?, h]
    · simp [findIndex?, h, ih]

/-- An index found by findIndex? is a valid index of the list. -/
theorem findIndex?_lt_length {α : Type} (test : α → Bool) (l : List α) (i : Nat)
    (h : findIndex? test l = some i) : i < l.length := by
  induction l generalizing i with
  | nil => simp [findIndex?] at h
  | cons x rest ih =>
    by_cases hx : test x
    · simp [findIndex?, hx] at h
      simp [List.length_cons]
      omega
    · simp [findIndex?, hx] at h
      obtain ⟨j, hj, rfl⟩ := h
      have := ih j hj
      simp [List.length_cons]
      omega

/-- When findIndex? finds an index, some element passes the test. -/
theorem findIndex?_exists {α : Type} (test : α → Bool) (l : List α) (i : Nat)
    (h : findIndex? test l = some i) : ∃ x ∈ l, test x = true := by
  induction l generalizing i with
  | nil => simp [findIndex?] at h
  | cons x rest ih =>
    by_cases hx : test x
    · exact ⟨x, by simp, hx⟩
    · simp [findIndex?, hx] at h
      obtain ⟨j, hj, rfl⟩ := h
      obtain ⟨y, hy, hty⟩ := ih j hj
      exact ⟨y, by simp [hy], hty⟩

/-- A successful run of the chain-construction loop appends exactly the supplied
transforms to the base chain. -/
theorem extendLoop_success (ts : List Transform) :
    ∀ (chain out : List Transform) (idx : Nat),
      extendLoop chain idx ts = Result.success out → out = chain ++ ts := by
  induction ts with
  | nil =>
    intro chain out idx h
    simp [extendLoop] at h
    simp [h]
  | cons t rest ih =>
    intro chain out idx h
    rw [extendLoop] at h
    split at h
    · have := ih _ _ _ h
      simp [this]
    · simp [mkFailure] at h

/-- A successful `from(version)` is exactly the suffix starting at the found index. -/
theorem chainFrom_success_of_findIndex (cs : List Transform) (v : AnalysisType) (i : Nat)
    (h : findIndex? (fun t => t.start = v) cs = some i) :
    chainFrom cs v = Result.success (cs.drop i) := by
  simp [chainFrom, sliceFrom, h, extendTransformChain, extendLoop]

/-- The `from(version)` operation fails exactly when no transform starts at the
requested version. -/
theorem chainFrom_isFailure_iff (cs : List Transform) (v : AnalysisType) :
    (chainFrom cs v).isFailure = true ↔ ∀ t ∈ cs, t.start ≠ v := by
  cases h : findIndex? (fun t => t.start = v) cs with
  | none =>
    have hnone := (findIndex?_eq_none_iff (fun t => t.start = v) cs).mp h
    constructor
    · intro _ t ht
      have := hnone t ht
      simpa using this
    · intro _
      simp [chainFrom, sliceFrom, h, mkFailure, Result.isFailure]
  | some i =>
    rw [chainFrom_success_of_findIndex cs v i h]
    obtain ⟨x, hx, htx⟩ := findIndex?_exists _ _ _ h
    simp only [Result.isFailure]
    constructor
    · intro hfalse
      exact absurd hfalse (by simp)
    · intro hall
      exact absurd (of_decide_eq_true htx) (hall x hx)

/-- A `to(version)` call that matches only at the last transform returns the whole
chain it was called on. -/
theorem chainTo_last (suffix : List Transform) (e : AnalysisType)
    (hfind : findIndex? (fun t => t.end_ = e) suffix = some (suffix.length - 1))
    (hne : suffix ≠ []) :
    chainTo suffix e = Result.success suffix := by
  have hlen : suffix.length - 1 + 1 = suffix.length :=
    Nat.succ_pred_eq_of_pos (List.length_pos.mpr hne)
  simp only [chainTo, sliceTo, hfind, if_pos, hlen, List.take_length]
  simp [extendTransformChain, extendLoop]

/-- Splitting the length of a list by a boolean test: the elements passing the filter and
those passing the negated filter together account for every element. -/
theorem length_filter_add_length_filter_not {α : Type} (p : α → Bool) (l : List α) :
    (l.filter p).length + (l.filter (fun a => !(p a))).length = l.length := by
  induction l with
  | nil => rfl
  | cons x rest ih =>
    by_cases h : p x <;> simp [List.filter_cons, h] <;> omega

/-- The page-accounting forEach adds one error per failed per-analysis result and one
processed per result of either kind. -/
theorem updateCounts_spec {α : Type} (rs : List (Result α)) :
    ∀ (c : MigrationCounts),
      (updateCountsWithResults c rs).error
          = c.error + (rs.filter (fun r => r.isFailure)).length
      ∧ (updateCountsWithResults c rs).processed = c.processed + rs.length
      ∧ (updateCountsWithResults c rs).successful
          = c.successful + (rs.filter (fun r => r.isSuccess)).length := by
  induction rs with
  | nil => intro c; simp [updateCountsWithResults]
  | cons r rest ih =>
    intro c
    cases r with
    | success d =>
      have := ih { c with successful := c.successful + 1, processed := c.processed + 1 }
      simp only [updateCountsWithResults, List.foldl_cons] at *
      simp [List.filter_cons, Result.isFailure, Result.isSuccess, this]
      omega
    | failure errs =>
      have := ih { c with error := c.error + 1, processed := c.processed + 1 }
      simp only [updateCountsWithResults, List.foldl_cons] at *
      simp [List.filter_cons, Result.isFailure, Result.isSuccess, this]
      omega

/-- One admission attempt never pushes the active count past the concurrency
ceiling. -/
theorem tryStart_running_le (maxConcurrency : Nat) (s : PQState)
    (h : s.running.length ≤ maxConcurrency) :
    (tryStart maxConcurrency s).running.length ≤ maxConcurrency := by
  unfold tryStart
  split
  · split
    · exact h
    · simp
      omega
  · exact h

/-- Both kinds of PromiseQueue step preserve the concurrency ceiling on the active
count. -/
theorem pqStep_running_le (maxConcurrency : Nat) (s s2 : PQState)
    (step : PQStep maxConcurrency s s2) (h : s.running.length ≤ maxConcurrency) :
    s2.running.length ≤ maxConcurrency := by
  cases step with
  | add i => exact tryStart_running_le _ _ h
  | finish i hmem =>
    apply tryStart_running_le
    have h2 : (s.running.erase i).length ≤ s.running.length :=
      (List.erase_sublist i s.running).length_le
    simpa using le_trans h2 h

/-- The concurrency ceiling is an invariant of every reachable PromiseQueue state. -/
theorem pq_running_le_of_reachable (maxConcurrency : Nat) (s : PQState)
    (h : PQReachable maxConcurrency s) : s.running.length ≤ maxConcurrency := by
  induction h with
  | refl => simp [pqInit]
  | tail _ step ih => exact pqStep_running_le _ _ _ step ih

/- ===== Claim theorems ===== -/

/-- C1: createTransformChain validates adjacency left-to-right and fails at the first
non-connecting transform with a message naming the offending index — but, contrary to
the claim, the version printed after "Received:" is the END of the offending
transform (here version 4), not its start (version 3, the value actually received and
compared against the expected version 2). Evaluated at the concrete failing input
below: transform 0 goes from version 1 to 2 and transform 1 from version 3 to 4, so
construction must fail at index 1 expecting version 2 and receiving version 3. -/
theorem c1_chain_break_reports_end_not_start :
    createTransformChain [stepTransform vA vB, stepTransform vC vD] =
      Result.failure ["Transform provided at index 1 does not connect to the transform chain. Received: \x7b\"name\":\"cs\",\"version\":4\x7d - Expected: \x7b\"name\":\"cs\",\"version\":2\x7d"]
    ∧ (stepTransform vC vD).start = vC
    ∧ (stepTransform vC vD).end_ = vD
    ∧ stringifyAnalysisType vC = "\x7b\"name\":\"cs\",\"version\":3\x7d" :=
  ⟨rfl, rfl, rfl, rfl⟩

/-- C2: for every transform built by defineTransform and every record, a record whose
declared analysisType is not the start version yields a Failure whose value is
independent of the transformer (so the transformer is never invoked, and in this pure
model the record cannot be modified); and whenever apply returns a Success, the
analysisType of the returned record is exactly the end version. -/
theorem c2_defineTransform_apply (start end_ : AnalysisType)
    (f g : Analysis → Result Analysis) (r out : Analysis) :
    (r.analysisType ≠ start →
      (defineTransform start end_ f).apply r =
          Result.failure ["Analysis type does not match expected input type"]
        ∧ (defineTransform start end_ f).apply r = (defineTransform start end_ g).apply r)
    ∧ ((defineTransform start end_ f).apply r = Result.success out →
        out.analysisType = end_) := by
  constructor
  · intro h
    constructor
    · simp [defineTransform, Transform.apply, h, mkFailure, unknownToString]
    · simp [defineTransform, Transform.apply, h]
  · intro h
    by_cases hm : r.analysisType ≠ start
    · simp [defineTransform, Transform.apply, hm, mkFailure, unknownToString] at h
    · push_neg at hm
      simp [defineTransform, Transform.apply, hm] at h
      cases hf : f r with
      | failure errs => simp [hf, mkFailure] at h
      | success d =>
        simp [hf] at h
        rw [← h]

/-- C2 witness: a record at version 2 fed to a transform expecting version 1 fails
with the type-mismatch message, and the successful application of that transform to a
matching record produces a record stamped with the end version. -/
theorem c2_defineTransform_apply_witness :
    (⟨vB, 0⟩ : Analysis).analysisType ≠ vA
    ∧ (defineTransform vA vB (fun r => Result.success { r with payload := r.payload + 1 })).apply ⟨vB, 0⟩
        = Result.failure ["Analysis type does not match expected input type"]
    ∧ (⟨vB, 1⟩ : Analysis).analysisType = vB := by
  have h1 := (c2_defineTransform_apply vA vB
      (fun r => Result.success { r with payload := r.payload + 1 })
      (fun r => Result.success { r with payload := r.payload + 1 }) ⟨vB, 0⟩ ⟨vB, 1⟩).1 (by decide)
  have h2 := (c2_defineTransform_apply vA vB
      (fun r => Result.success { r with payload := r.payload + 1 })
      (fun r => Result.success { r with payload := r.payload + 1 }) r0 ⟨vB, 1⟩).2 (by decide)
  exact ⟨by decide, h1.1, h2⟩

/-- C3 counterexample: on the validly connected chain a-b, b-a, a-b (payload
incremented once per step), from(a) succeeds and returns the whole chain (the suffix
at the first transform starting at a, index 0), but chaining to(getEnd) afterwards
truncates at the FIRST transform whose end is b — the one-step prefix — so applying
the from-then-to chain to a record gives payload 1 while applying the suffix itself
gives payload 3. This refutes the claim that from-then-to always has the same applied
effect as the suffix. -/
theorem c3_counterexample_from_to_truncates :
    chainApply (resultChain (chainTo (resultChain (chainFrom dupChain vA)) vB)) r0
      ≠ chainApply (dupChain.drop 0) r0
    ∧ chainGetEnd? dupChain = some vB
    ∧ findIndex? (fun t => t.start = vA) dupChain = some 0
    ∧ chainApply (resultChain (chainTo (resultChain (chainFrom dupChain vA)) vB)) r0
        = Result.success ⟨vB, 1⟩
    ∧ chainApply (dupChain.drop 0) r0 = Result.success ⟨vB, 3⟩ := by
  refine ⟨by decide, rfl, by decide, by decide, by decide⟩

/-- C3 amended: from(v) fails exactly when no transform of the chain starts at v;
when it succeeds it returns precisely the suffix beginning at the first transform
whose start equals v — hence the same applied effect as that suffix on every record —
and the subsequent to(getEnd) call returns that same suffix provided the first
transform of the suffix whose end equals the chain end is the last one (without that
proviso to() truncates at the earlier match, as the counterexample shows). -/
theorem c3_from_to_amended (cs : List Transform) (v e : AnalysisType) (i : Nat) :
    ((chainFrom cs v).isFailure = true ↔ ∀ t ∈ cs, t.start ≠ v)
    ∧ (findIndex? (fun t => t.start = v) cs = some i →
        chainFrom cs v = Result.success (cs.drop i)
        ∧ (∀ r, chainApply (resultChain (chainFrom cs v)) r = chainApply (cs.drop i) r)
        ∧ (chainGetEnd? cs = some e →
            findIndex? (fun t => t.end_ = e) (cs.drop i) = some ((cs.drop i).length - 1) →
            cs.drop i ≠ [] →
            chainTo (cs.drop i) e = Result.success (cs.drop i))) := by
  refine ⟨chainFrom_isFailure_iff cs v, ?_⟩
  intro hidx
  have hsucc := chainFrom_success_of_findIndex cs v i hidx
  refine ⟨hsucc, ?_, ?_⟩
  · intro r
    rw [hsucc]
    rfl
  · intro _ hfind hne
    exact chainTo_last _ e hfind hne

/-- C3 witness: on the duplicate-free chain a-b, b-c, from(b) returns the one-element
suffix and to(c) on that suffix returns it unchanged. -/
theorem c3_from_to_amended_witness :
    findIndex? (fun t => t.start = vB) chainABC = some 1
    ∧ chainFrom chainABC vB = Result.success (chainABC.drop 1)
    ∧ chainGetEnd? chainABC = some vC
    ∧ findIndex? (fun t => t.end_ = vC) (chainABC.drop 1) = some ((chainABC.drop 1).length - 1)
    ∧ chainTo (chainABC.drop 1) vC = Result.success (chainABC.drop 1) := by
  have h := (c3_from_to_amended chainABC vB vC 1).2 (by decide)
  exact ⟨by decide, h.1, by decide, by decide,
    h.2.2 (by decide) (by decide) (by simp [chainABC])⟩

/-- C4: for the concurrency limiter, the active count never exceeds maxConcurrency in
any reachable state of any run (the general invariant); and in the claimed scenario —
maxConcurrency 2 with five submitted items of equal fixed delay — every state of the
run keeps at most 2 items running, all five items start and finish, the items start
in submission order 1,2,3,4,5 (FIFO among the queued items 3,4,5), and the final
scenario state is reachable by limiter steps from the initial state. -/
theorem c4_concurrency_limiter (maxConcurrency : Nat) (s : PQState)
    (h : PQReachable maxConcurrency s) :
    s.running.length ≤ maxConcurrency
    ∧ (∀ t ∈ pqScenarioTrace, t.running.length ≤ 2)
    ∧ pqS10.started = [1, 2, 3, 4, 5]
    ∧ pqS10.finished = [1, 2, 3, 4, 5]
    ∧ pqS10.pending = []
    ∧ PQReachable 2 pqS10 := by
  refine ⟨pq_running_le_of_reachable _ _ h, by decide, by decide, by decide, by decide, ?_⟩
  have h1 : PQStep 2 pqInit pqS1 := PQStep.add 1 pqInit
  have h2 : PQStep 2 pqS1 pqS2 := PQStep.add 2 pqS1
  have h3 : PQStep 2 pqS2 pqS3 := PQStep.add 3 pqS2
  have h4 : PQStep 2 pqS3 pqS4 := PQStep.add 4 pqS3
  have h5 : PQStep 2 pqS4 pqS5 := PQStep.add 5 pqS4
  have h6 : PQStep 2 pqS5 pqS6 := PQStep.finish 1 pqS5 (by decide)
  have h7 : PQStep 2 pqS6 pqS7 := PQStep.finish 2 pqS6 (by decide)
  have h8 : PQStep 2 pqS7 pqS8 := PQStep.finish 3 pqS7 (by decide)
  have h9 : PQStep 2 pqS8 pqS9 := PQStep.finish 4 pqS8 (by decide)
  have h10 : PQStep 2 pqS9 pqS10 := PQStep.finish 5 pqS9 (by decide)
  exact ((((((((((Relation.ReflTransGen.refl.tail h1).tail h2).tail h3).tail h4).tail
    h5).tail h6).tail h7).tail h8).tail h9).tail h10)

/-- C4 witness: the theorem applied at the initial state, which is trivially
reachable. -/
theorem c4_concurrency_limiter_witness :
    pqInit.running.length ≤ 2 ∧ pqS10.started = [1, 2, 3, 4, 5] := by
  have h := c4_concurrency_limiter 2 pqInit Relation.ReflTransGen.refl
  exact ⟨h.1, h.2.2.1⟩

/-- C5: withResult passes a Failure input through unchanged (same error strings in
the same order) and its value on a Failure input does not depend on the wrapped
function, so the function is never invoked; on a Success input it invokes the
function on the payload, converting a thrown value into a Failure carrying its
rendered message (never propagating it) and normalizing a normal return through
asResult; and a bare (non-Result) input behaves exactly like a Success input. -/
theorem c5_withResult {α β : Type} (fn g : α → Except Unknown (Result β ⊕ β))
    (errs : List String) (v : α) :
    withResult fn (Sum.inl (Result.failure errs)) = Result.failure errs
    ∧ withResult fn (Sum.inl (Result.failure errs))
        = withResult g (Sum.inl (Result.failure errs))
    ∧ (∀ e, fn v = Except.error e →
        withResult fn (Sum.inl (Result.success v)) = Result.failure [unknownToString e])
    ∧ (∀ ret, fn v = Except.ok ret →
        withResult fn (Sum.inl (Result.success v)) = asResult ret)
    ∧ withResult fn (Sum.inr v) = withResult fn (Sum.inl (Result.success v)) := by
  refine ⟨withResult_inl_failure fn errs, ?_, ?_, ?_, rfl⟩
  · rw [withResult_inl_failure, withResult_inl_failure]
  · intro e he
    simp [withResult, asResult, he, mkFailure]
  · intro ret hret
    simp [withResult, asResult, hret]

/-- C5 witness: a step that throws has its thrown value captured as a Failure; a step
returning a bare value is normalized through asResult; a Failure input passes through
untouched without the step running. -/
theorem c5_withResult_witness :
    throwingStep 0 = Except.error (Unknown.str "boom")
    ∧ withResult throwingStep (Sum.inl (Result.success 0)) = Result.failure ["boom"]
    ∧ bareStep 0 = Except.ok (Sum.inr 1)
    ∧ withResult bareStep (Sum.inl (Result.success 0)) = asResult (Sum.inr 1)
    ∧ withResult throwingStep (Sum.inl (Result.failure ["e1", "e2"]))
        = Result.failure ["e1", "e2"] := by
  have h := c5_withResult throwingStep throwingStep ["e1", "e2"] 0
  have h2 := c5_withResult bareStep bareStep ["e1", "e2"] 0
  exact ⟨rfl, h.2.2.1 (Unknown.str "boom") rfl, rfl, h2.2.2.2.1 (Sum.inr 1) rfl, h.1⟩

/-- C6: every analysis of a fetched page whose declared version number is at or
beyond the version number of the chain end is dropped by filterSkippedAnalyses, so it
never reaches the migration stage (which maps the apply of the chain over exactly the
filtered page); and the skipped and processed counts each grow by exactly the number
of such dropped analyses — one per skipped record. -/
theorem c6_filter_skips (endVersion : Int) (counts : MigrationCounts)
    (analyses : List Analysis) (chain : List Transform) (a : Analysis)
    (ha : a ∈ analyses) (hv : endVersion ≤ a.analysisType.version) :
    a ∉ (filterSkippedAnalyses endVersion counts analyses).1
    ∧ migrateAnalyses chain (filterSkippedAnalyses endVersion counts analyses).1
        = ((filterSkippedAnalyses endVersion counts analyses).1).map (chainApply chain)
    ∧ (filterSkippedAnalyses endVersion counts analyses).2.skipped
        = counts.skipped
          + (analyses.filter (fun x => !decide (x.analysisType.version < endVersion))).length
    ∧ (filterSkippedAnalyses endVersion counts analyses).2.processed
        = counts.processed
          + (analyses.filter (fun x => !decide (x.analysisType.version < endVersion))).length := by
  have hcount : (analyses.filter (fun x => decide (x.analysisType.version < endVersion))).length
      + (analyses.filter (fun x => !decide (x.analysisType.version < endVersion))).length
      = analyses.length :=
    length_filter_add_length_filter_not _ _
  refine ⟨?_, rfl, ?_, ?_⟩
  · intro hmem
    simp only [filterSkippedAnalyses] at hmem
    have := (List.mem_filter.mp hmem).2
    simp at this
    omega
  · simp only [filterSkippedAnalyses]
    omega
  · simp only [filterSkippedAnalyses]
    omega

/-- C6 witness: on a two-record page with chain end version 4, the record at version
5 is in the page, is at or beyond the end version, is dropped by the filter, and the
skipped count grows by exactly one. -/
theorem c6_filter_skips_witness :
    (⟨⟨"cs", 5⟩, 0⟩ : Analysis) ∈ [(⟨⟨"cs", 5⟩, 0⟩ : Analysis), ⟨⟨"cs", 3⟩, 1⟩]
    ∧ (4 : Int) ≤ (⟨⟨"cs", 5⟩, 0⟩ : Analysis).analysisType.version
    ∧ (⟨⟨"cs", 5⟩, 0⟩ : Analysis)
        ∉ (filterSkippedAnalyses 4 ⟨0, 0, 0, 0, 0⟩
            [(⟨⟨"cs", 5⟩, 0⟩ : Analysis), ⟨⟨"cs", 3⟩, 1⟩]).1
    ∧ (filterSkippedAnalyses 4 ⟨0, 0, 0, 0, 0⟩
          [(⟨⟨"cs", 5⟩, 0⟩ : Analysis), ⟨⟨"cs", 3⟩, 1⟩]).2.skipped = 1 := by
  have h := c6_filter_skips 4 ⟨0, 0, 0, 0, 0⟩
      [(⟨⟨"cs", 5⟩, 0⟩ : Analysis), ⟨⟨"cs", 3⟩, 1⟩]
      chainABC ⟨⟨"cs", 5⟩, 0⟩ (by decide) (by decide)
  refine ⟨by decide, by decide, h.1, ?_⟩
  rw [h.2.2.1]
  decide

/-- C7: evaluation of the take() operation of the event queue. On the empty queue it
returns the Empty Queue Failure and leaves the queue unchanged, and on a queue whose
oldest element is truthy it removes and returns that element as a Success with the
take-listener event carrying the length after removal — but, contrary to the claim,
on a non-empty queue whose oldest element is FALSY (here the number 0) the element is
still removed by shift() yet take() reports the Empty Queue Failure and fires no
listener, because the source tests the shifted element with a JavaScript truthiness
check instead of comparing it against undefined. -/
theorem c7_take_truthiness :
    queueTake jsNumberTruthy [(0 : Int)] =
      (Result.failure ["Empty Queue"], ([] : List Int), (none : Option (QueueEvent Int)))
    ∧ queueTake jsNumberTruthy ([] : List Int) = (Result.failure ["Empty Queue"], [], none)
    ∧ queueTake jsNumberTruthy [(7 : Int), 3] = (Result.success 7, [3], some ⟨1, 7⟩) :=
  ⟨rfl, rfl, rfl⟩

/-- C8 counterexample: createTransformChain called with no transforms returns a
Success whose transform sequence is empty, on which getStart and getEnd have no value
(the source closures would crash indexing an empty array). This refutes the claim
that every Success chain has a non-empty sequence. -/
theorem c8_counterexample_empty_chain :
    createTransformChain ([] : List Transform) = Result.success []
    ∧ chainGetStart? [] = none
    ∧ chainGetEnd? [] = none :=
  ⟨rfl, rfl, rfl⟩

/-- C8 amended: every chain returned as a Success by createTransformChain on a
NON-EMPTY transform list has exactly the supplied non-empty sequence, with getStart
and getEnd defined (start of the first and end of the last transform); a successful
add returns a new chain that is the old sequence with the transform appended (the
original sequence is untouched — the operations are pure); and successful from and to
calls return non-empty chains. Only the zero-argument createTransformChain call
escapes the invariant, as the counterexample shows. -/
theorem c8_chain_nonempty_amended (ts cs cs2 : List Transform) (t : Transform)
    (v : AnalysisType) :
    (ts ≠ [] → createTransformChain ts = Result.success cs →
      cs = ts ∧ cs ≠ [] ∧ (chainGetStart? cs).isSome = true ∧ (chainGetEnd? cs).isSome = true)
    ∧ (chainAdd cs t = Result.success cs2 → cs2 = cs ++ [t] ∧ cs2 ≠ [])
    ∧ (chainFrom cs v = Result.success cs2 →
        cs2 ≠ [] ∧ (chainGetStart? cs2).isSome = true ∧ (chainGetEnd? cs2).isSome = true)
    ∧ (chainTo cs v = Result.success cs2 → cs2 ≠ []) := by
  refine ⟨?_, ?_, ?_, ?_⟩
  · intro hne h
    have hcs : cs = ts := by simpa using (extendLoop_success ts [] cs 0 h)
    subst hcs
    refine ⟨rfl, hne, ?_, ?_⟩
    · cases cs with
      | nil => exact absurd rfl hne
      | cons a l => simp [chainGetStart?]
    · cases cs with
      | nil => exact absurd rfl hne
      | cons a l => simp [chainGetEnd?]
  · intro h
    have := extendLoop_success [t] cs cs2 0 h
    refine ⟨this, ?_⟩
    simp [this]
  · intro h
    rw [chainFrom] at h
    cases hidx : findIndex? (fun tr => tr.start = v) cs with
    | none => simp [sliceFrom, hidx, mkFailure] at h
    | some i =>
      have hlt := findIndex?_lt_length _ _ _ hidx
      simp [sliceFrom, hidx, extendTransformChain, extendLoop] at h
      have hne : cs2 ≠ [] := by
        rw [← h]
        intro hnil
        rw [List.drop_eq_nil_iff] at hnil
        omega
      refine ⟨hne, ?_, ?_⟩
      · cases hc : cs2 with
        | nil => exact absurd hc hne
        | cons a l => simp [chainGetStart?, hc]
      · cases hc : cs2 with
        | nil => exact absurd hc hne
        | cons a l => simp [chainGetEnd?, hc]
  · intro h
    rw [chainTo] at h
    cases hidx : findIndex? (fun tr => tr.end_ = v) cs with
    | none => simp [sliceTo, hidx, mkFailure] at h
    | some i =>
      have hlt := findIndex?_lt_length _ _ _ hidx
      simp [sliceTo, hidx, extendTransformChain, extendLoop] at h
      rw [← h]
      intro hnil
      rw [List.take_eq_nil_iff] at hnil
      cases hnil with
      | inl h0 => exact absurd h0 (by omega)
      | inr h0 =>
        rw [h0] at hlt
        simp at hlt

/-- C8 witness: a one-transform construction succeeds with a non-empty sequence and
defined endpoints, and a successful add returns the appended two-transform (still
non-empty) sequence. -/
theorem c8_chain_nonempty_amended_witness :
    ([stepTransform vA vB] : List Transform) ≠ []
    ∧ createTransformChain [stepTransform vA vB] = Result.success [stepTransform vA vB]
    ∧ (chainGetStart? [stepTransform vA vB]).isSome = true
    ∧ (chainGetEnd? [stepTransform vA vB]).isSome = true
    ∧ chainAdd [stepTransform vA vB] (stepTransform vB vC)
        = Result.success [stepTransform vA vB, stepTransform vB vC]
    ∧ ([stepTransform vA vB, stepTransform vB vC] : List Transform) ≠ [] := by
  have h := c8_chain_nonempty_amended [stepTransform vA vB] [stepTransform vA vB]
      [stepTransform vA vB, stepTransform vB vC] (stepTransform vB vC) vA
  have hne : ([stepTransform vA vB] : List Transform) ≠ [] := by simp
  have h1 := h.1 hne rfl
  have h2 := h.2.1 rfl
  exact ⟨hne, rfl, h1.2.2.1, h1.2.2.2, rfl, h2.2⟩

/-- C9 counterexample: the variadic failure constructor applied to zero parts
produces a Failure whose error list is empty, refuting the claim that every Failure
built by failure carries at least one error string. -/
theorem c9_counterexample_empty_failure :
    (mkFailure [] : Result Nat) = Result.failure []
    ∧ resultErrors (mkFailure ([] : List Unknown) : Result Nat) = [] :=
  ⟨rfl, rfl⟩

/-- C9 amended: success, failure and asResult each populate exactly one variant of
the tagged Result (isSuccess is the negation of isFailure on every Result, asResult
returns a Result unchanged and wraps a bare value as a Success); and failure renders
exactly one error string per supplied part, so the error list is non-empty whenever
AT LEAST ONE part is supplied — the zero-part call of the counterexample is the only
way to build a Failure with an empty error list. -/
theorem c9_failure_parts_amended (parts : List Unknown) (r : Result Nat) (x : Nat) :
    (mkFailure parts : Result Nat) = Result.failure (parts.map unknownToString)
    ∧ (parts.map unknownToString).length = parts.length
    ∧ (parts ≠ [] → resultErrors (mkFailure parts : Result Nat) ≠ [])
    ∧ (Result.success x).isSuccess = true ∧ (Result.success x).isFailure = false
    ∧ r.isSuccess = !r.isFailure
    ∧ asResult (Sum.inl r) = r
    ∧ (asResult (Sum.inr x) : Result Nat) = Result.success x := by
  refine ⟨rfl, List.length_map _ _, ?_, rfl, rfl, ?_, rfl, rfl⟩
  · intro h
    simp [mkFailure, resultErrors]
    exact h
  · cases r <;> rfl

/-- C9 witness: a single-part failure call yields exactly one error string and a
non-empty error list. -/
theorem c9_failure_parts_amended_witness :
    ([Unknown.str "a"] : List Unknown) ≠ []
    ∧ resultErrors (mkFailure [Unknown.str "a"] : Result Nat) ≠ []
    ∧ (mkFailure [Unknown.str "a"] : Result Nat) = Result.failure ["a"] := by
  have h := c9_failure_parts_amended [Unknown.str "a"] (Result.success 0) 0
  exact ⟨by simp, h.2.2.1 (by simp), h.1⟩

/-- C10: the orchestration filter decides skipping by version number alone, ignoring
the schema-family name. For an analysis whose name differs from the family of the
first transform of the chain: if its version number is at least the version number of
the chain end it is dropped (counted once in skipped) and never migrated; if its
version number is below, it passes the filter and the chain rejects it at the first
transform with the type-mismatch Failure, which the page-accounting forEach then tallies
as one error (error grows by the number of failed results, processed by the number of
results). -/
theorem c10_filter_ignores_name (endVersion : Int) (counts : MigrationCounts)
    (analyses : List Analysis) (a : Analysis) (t0 : Transform) (rest : List Transform)
    (hname : a.analysisType.name ≠ t0.start.name) :
    (endVersion ≤ a.analysisType.version →
      a ∉ (filterSkippedAnalyses endVersion counts analyses).1
      ∧ (filterSkippedAnalyses endVersion counts analyses).2.skipped
          = counts.skipped
            + (analyses.filter (fun x => !decide (x.analysisType.version < endVersion))).length)
    ∧ (a.analysisType.version < endVersion → a ∈ analyses →
      a ∈ (filterSkippedAnalyses endVersion counts analyses).1
      ∧ chainApply (t0 :: rest) a
          = Result.failure ["Analysis type does not match expected input type"])
    ∧ (∀ (c : MigrationCounts) (rs : List (Result Analysis)),
      (updateCountsWithResults c rs).error
          = c.error + (rs.filter (fun r => r.isFailure)).length
      ∧ (updateCountsWithResults c rs).processed = c.processed + rs.length) := by
  refine ⟨?_, ?_, ?_⟩
  · intro hv
    have hcount : (analyses.filter (fun x => decide (x.analysisType.version < endVersion))).length
        + (analyses.filter (fun x => !decide (x.analysisType.version < endVersion))).length
        = analyses.length :=
      length_filter_add_length_filter_not _ _
    constructor
    · intro hmem
      simp only [filterSkippedAnalyses] at hmem
      have := (List.mem_filter.mp hmem).2
      simp at this
      omega
    · simp only [filterSkippedAnalyses]
      omega
  · intro hv hmem
    constructor
    · simp only [filterSkippedAnalyses]
      exact List.mem_filter.mpr ⟨hmem, by simpa using hv⟩
    · have hne : a.analysisType ≠ t0.start := by
        intro he
        exact hname (congrArg AnalysisType.name he)
      have happly : t0.apply a
          = Result.failure ["Analysis type does not match expected input type"] := by
        simp [Transform.apply, hne, mkFailure, unknownToString]
      rw [chainApply_cons, happly]
      exact chainApply_foldl_failure rest _
  · intro c rs
    exact ⟨(updateCounts_spec rs c).1, (updateCounts_spec rs c).2.1⟩

/-- C10 witness: an analysis of a foreign family at version 3 against a chain of
family cs ending at version 4 passes the filter, is rejected by the first transform
with the type-mismatch Failure, and one failed result adds one to the error count. -/
theorem c10_filter_ignores_name_witness :
    (⟨⟨"other", 3⟩, 0⟩ : Analysis).analysisType.name ≠ (stepTransform vA vB).start.name
    ∧ (⟨⟨"other", 3⟩, 0⟩ : Analysis)
        ∈ (filterSkippedAnalyses 4 ⟨0, 0, 0, 0, 0⟩ [(⟨⟨"other", 3⟩, 0⟩ : Analysis)]).1
    ∧ chainApply [stepTransform vA vB, stepTransform vB vC] ⟨⟨"other", 3⟩, 0⟩
        = Result.failure ["Analysis type does not match expected input type"]
    ∧ (updateCountsWithResults ⟨0, 0, 0, 0, 0⟩ [(Result.failure ["x"] : Result Analysis)]).error
        = 0 + ([(Result.failure ["x"] : Result Analysis)].filter (fun r => r.isFailure)).length := by
  have h := c10_filter_ignores_name 4 ⟨0, 0, 0, 0, 0⟩ [(⟨⟨"other", 3⟩, 0⟩ : Analysis)]
      ⟨⟨"other", 3⟩, 0⟩ (stepTransform vA vB) [stepTransform vB vC] (by decide)
  have h2 := h.2.1 (by decide) (by decide)
  exact ⟨by decide, h2.1, h2.2, (h.2.2 ⟨0, 0, 0, 0, 0⟩ [Result.failure ["x"]]).1⟩
